import Mathlib

/-
Verification of the Helm wrapper in pkg/executables/helm.go.

The Go code builds command-line invocations of the external helm binary.
We embed each operation as a pure function from the Helm configuration and
the call parameters to the built invocation (argument tokens, environment
mapping, optional standard-input payload).  Operations that post-process
the external result (Template, Delete, ListCharts) additionally take the
external runner as an explicit function and return the list of commands
actually invoked together with the processed result.
-/

namespace HelmSpec

/-- A single invocation of the external executable: the ordered argument
tokens, the environment mapping passed to the process, and the optional
standard-input payload. -/
structure Cmd where
  args  : List String
  env   : String → Option String
  stdin : Option String

/-- Modelled from the spec: the registrymirror package is not part of the
supplied sources; per the spec, a registry mirror is an opaque rewrite
function applied to a chart reference, and ReplaceRegistry returns the
rewritten reference when a mirror is configured and the original reference
when none is configured (nil receiver). -/
def ReplaceRegistry (mirror : Option (String → String)) (url : String) : String :=
  match mirror with
  | some rewrite => rewrite url
  | none => url

/-- The Helm struct: registry mirror (possibly absent), environment
mapping, and the insecure flag.  The executable handle is modelled by
passing the runner explicitly to the operations that consume its result. -/
structure Helm where
  registryMirror : Option (String → String)
  env : String → Option String
  insecure : Bool

def HelmOpt : Type := Helm → Helm

def WithRegistryMirror (mirror : Option (String → String)) : HelmOpt :=
  fun h => { h with registryMirror := mirror }

def WithInsecure : HelmOpt :=
  fun h => { h with insecure := true }

/-- WithEnv merges the provided mapping into the existing one: every key
set by the provided map takes its value from it, all other keys keep their
previous value. -/
def WithEnv (env : String → Option String) : HelmOpt :=
  fun h =>
    { h with env := fun k =>
        match env k with
        | some v => some v
        | none => h.env k }

def defaultHelmEnv : String → Option String :=
  fun k => if k = "HELM_EXPERIMENTAL_OCI" then some "1" else none

def applyOpts (h : Helm) (opts : List HelmOpt) : Helm :=
  opts.foldl (fun h o => o h) h

def NewHelm (opts : List HelmOpt) : Helm :=
  applyOpts { registryMirror := none, env := defaultHelmEnv, insecure := false } opts

def insecureSkipVerifyFlag : String := "--insecure-skip-tls-verify"

def Helm.url (h : Helm) (originalURL : String) : String :=
  ReplaceRegistry h.registryMirror originalURL

def Helm.addInsecureFlagIfProvided (h : Helm) (params : List String) : List String :=
  if h.insecure then params ++ [insecureSkipVerifyFlag] else params

/-- The argument tokens built by Template. -/
def Helm.templateParams (h : Helm) (ociURI version nspace kubeVersion : String) : List String :=
  let params := ["template", h.url ociURI, "--version", version, "--namespace", nspace,
    "--kube-version", kubeVersion]
  let params := h.addInsecureFlagIfProvided params
  params ++ ["-f", "-"]

/-- Template.  The yaml.Marshal result for the values payload is passed as
an Except value; the runner is the external executable.  Returns the list
of commands actually invoked together with the result. -/
def Helm.Template (h : Helm) (ociURI version nspace : String)
    (marshalledValues : Except String String) (kubeVersion : String)
    (runner : Cmd → Except String String) : List Cmd × Except String String :=
  match marshalledValues with
  | .error e => ([], .error ("failed marshalling values for helm template: " ++ e))
  | .ok valuesYaml =>
    let cmd : Cmd :=
      { args := h.templateParams ociURI version nspace kubeVersion
        env := h.env
        stdin := some valuesYaml }
    match runner cmd with
    | .error e => ([cmd], .error e)
    | .ok out => ([cmd], .ok out)

def Helm.PullChart (h : Helm) (ociURI version : String) : Cmd :=
  { args := h.addInsecureFlagIfProvided ["pull", h.url ociURI, "--version", version]
    env := h.env
    stdin := none }

def Helm.ShowValues (h : Helm) (ociURI version : String) : Cmd :=
  { args := ["show", "values", h.url ociURI, "--version", version]
    env := h.env
    stdin := none }

def Helm.PushChart (h : Helm) (chart registry : String) : Cmd :=
  { args := h.addInsecureFlagIfProvided ["push", chart, registry]
    env := h.env
    stdin := none }

def Helm.RegistryLogin (h : Helm) (registry username password : String) : Cmd :=
  let params := ["registry", "login", registry, "--username", username, "--password-stdin"]
  let params := if h.insecure then params ++ ["--insecure"] else params
  { args := params
    env := h.env
    stdin := some password }

def Helm.SaveChart (h : Helm) (ociURI version folder : String) : Cmd :=
  { args := h.addInsecureFlagIfProvided
      ["pull", h.url ociURI, "--version", version, "--destination", folder]
    env := h.env
    stdin := none }

def Helm.InstallChartFromName (h : Helm) (ociURI kubeConfig name version : String) : Cmd :=
  { args := h.addInsecureFlagIfProvided
      ["upgrade", "--install", name, ociURI, "--version", version, "--kubeconfig", kubeConfig]
    env := h.env
    stdin := none }

def GetHelmValueArgs : List String → List String
  | [] => []
  | value :: rest => "--set" :: value :: GetHelmValueArgs rest

def Helm.InstallChart (h : Helm)
    (chart ociURI version kubeconfigFilePath nspace valueFilePath : String)
    (skipCRDs : Bool) (values : List String) : Cmd :=
  let valueArgs := GetHelmValueArgs values
  let params := ["upgrade", "--install", chart, ociURI, "--version", version]
  let params := if skipCRDs then params ++ ["--skip-crds"] else params
  let params := params ++ valueArgs
  let params := if kubeconfigFilePath ≠ "" then params ++ ["--kubeconfig", kubeconfigFilePath]
    else params
  let params := if 0 < nspace.length then params ++ ["--create-namespace", "--namespace", nspace]
    else params
  let params := if valueFilePath ≠ "" then params ++ ["-f", valueFilePath] else params
  { args := h.addInsecureFlagIfProvided params
    env := h.env
    stdin := none }

def Helm.InstallChartWithValuesFile (h : Helm)
    (chart ociURI version kubeconfigFilePath valuesFilePath : String) : Cmd :=
  { args := h.addInsecureFlagIfProvided
      ["upgrade", "--install", chart, ociURI, "--version", version, "--values", valuesFilePath,
        "--kubeconfig", kubeconfigFilePath, "--wait"]
    env := h.env
    stdin := none }

/-- The invocation built by Delete. -/
def Helm.DeleteCmd (h : Helm) (kubeconfigFilePath installName nspace : String) : Cmd :=
  let params := ["delete", installName, "--kubeconfig", kubeconfigFilePath]
  let params := if nspace ≠ "" then params ++ ["--namespace", nspace] else params
  { args := h.addInsecureFlagIfProvided params
    env := h.env
    stdin := none }

/-- Delete: runs the built invocation and wraps a failure with the
operation-identifying message; returns none on success. -/
def Helm.Delete (h : Helm) (kubeconfigFilePath installName nspace : String)
    (runner : Cmd → Except String String) : Option String :=
  match runner (h.DeleteCmd kubeconfigFilePath installName nspace) with
  | .error e => some ("deleting helm installation " ++ e)
  | .ok _ => none

/-- The invocation built by ListCharts. -/
def Helm.ListChartsCmd (h : Helm) (kubeconfigFilePath : String) : Cmd :=
  { args := ["list", "-q", "--kubeconfig", kubeconfigFilePath]
    env := h.env
    stdin := none }

/-- strings.FieldsFunc with the separator c == newline: the maximal runs of
non-newline characters, in order, empty runs dropped. -/
def fieldsAux (acc : List Char) : List Char → List (List Char)
  | [] => if acc = [] then [] else [acc.reverse]
  | c :: rest =>
    if c = '\n' then
      if acc = [] then fieldsAux [] rest else acc.reverse :: fieldsAux [] rest
    else fieldsAux (c :: acc) rest

def fieldsNewline (s : String) : List String :=
  (fieldsAux [] s.data).map fun cs => String.mk cs

/-- ListCharts: runs the built invocation and splits the output on newline
boundaries, dropping empty segments; propagates a failure unchanged. -/
def Helm.ListCharts (h : Helm) (kubeconfigFilePath : String)
    (runner : Cmd → Except String String) : Except String (List String) :=
  match runner (h.ListChartsCmd kubeconfigFilePath) with
  | .error e => .error e
  | .ok out => .ok (fieldsNewline out)

/-- UpgradeChartWithValuesFile first builds the fixed parameter tokens,
then applies the extra options to the receiver itself, then appends the
insecure flag from the mutated state.  Returns the mutated Helm value
together with the built invocation. -/
def Helm.UpgradeChartWithValuesFile (h : Helm)
    (chart ociURI version kubeconfigFilePath valuesFilePath : String)
    (opts : List HelmOpt) : Helm × Cmd :=
  let params := ["upgrade", chart, ociURI, "--version", version, "--values", valuesFilePath,
    "--kubeconfig", kubeconfigFilePath, "--wait"]
  let h := applyOpts h opts
  (h, { args := h.addInsecureFlagIfProvided params
        env := h.env
        stdin := none })

/-- The value assigned to key k by the last map in the sequence that sets it,
if any: the specification-side characterization of repeated WithEnv merges. -/
def lastSetVal (maps : List (String → Option String)) (k : String) : Option String :=
  maps.reverse.findSome? fun m => m k

/-- Environment map used as a concrete input by the witness theorems. -/
def envMapOne : String → Option String :=
  fun k => if k = "A" then some "1" else none

/-- Environment map used as a concrete input by the witness theorems. -/
def envMapTwo : String → Option String :=
  fun k => if k = "A" then some "2" else none

/-! ### Helper lemmas -/

theorem addInsecure_of_insecure (h : Helm) (l : List String) (hi : h.insecure = true) :
    h.addInsecureFlagIfProvided l = l ++ [insecureSkipVerifyFlag] := by
  simp [Helm.addInsecureFlagIfProvided, hi]

theorem addInsecure_of_not_insecure (h : Helm) (l : List String) (hi : h.insecure = false) :
    h.addInsecureFlagIfProvided l = l := by
  simp [Helm.addInsecureFlagIfProvided, hi]

theorem getLast?_addInsecure (h : Helm) (l : List String) (hi : h.insecure = true) :
    (h.addInsecureFlagIfProvided l).getLast? = some insecureSkipVerifyFlag := by
  rw [addInsecure_of_insecure h l hi]
  exact List.getLast?_concat l

theorem getElem?_addInsecure (h : Helm) (l : List String) (i : Nat) (hi : i < l.length) :
    (h.addInsecureFlagIfProvided l)[i]? = l[i]? := by
  unfold Helm.addInsecureFlagIfProvided
  split
  · exact List.getElem?_append_left hi
  · rfl

theorem not_mem_getHelmValueArgs (x : String) (values : List String)
    (hv : x ∉ values) (hs : x ≠ "--set") : x ∉ GetHelmValueArgs values := by
  induction values with
  | nil => simp [GetHelmValueArgs]
  | cons v rest ih =>
    simp only [List.mem_cons, not_or] at hv
    simp only [GetHelmValueArgs, List.mem_cons, not_or]
    exact ⟨hs, hv.1, ih hv.2⟩

theorem lastSetVal_cons (m : String → Option String) (rest : List (String → Option String))
    (k : String) : lastSetVal (m :: rest) k = (lastSetVal rest k).or (m k) := by
  simp [lastSetVal, List.findSome?_append, List.findSome?]
  cases m k <;> rfl

theorem env_applyOpts_withEnv (maps : List (String → Option String)) (h : Helm) (k : String) :
    (applyOpts h (maps.map WithEnv)).env k =
      match lastSetVal maps k with
      | some v => some v
      | none => h.env k := by
  induction maps generalizing h with
  | nil => simp [applyOpts, lastSetVal, List.findSome?]
  | cons m rest ih =>
    rw [show applyOpts h ((m :: rest).map WithEnv)
        = applyOpts (WithEnv m h) (rest.map WithEnv) from rfl, ih, lastSetVal_cons]
    cases hrest : lastSetVal rest k <;> cases hm : m k <;> simp [WithEnv, Option.or, hm]

theorem lastSetVal_isSome_of_mem (maps : List (String → Option String)) (k : String)
    (m : String → Option String) (hm : m ∈ maps) (hs : (m k).isSome) :
    (lastSetVal maps k).isSome := by
  induction maps with
  | nil => cases hm
  | cons m0 rest ih =>
    rw [lastSetVal_cons]
    rcases List.mem_cons.mp hm with h1 | h2
    · subst h1
      cases hrest : lastSetVal rest k
      · simpa [Option.or] using hs
      · simp [Option.or]
    · have := ih h2
      cases hrest : lastSetVal rest k
      · rw [hrest] at this; cases this
      · simp [Option.or]

/-! ### Claim theorems -/

/-- Claim C1, counterexample: with a registry mirror configured that rewrites
every reference to "mirror.local/chart", InstallChartFromName places the
original, unrewritten reference in the argument list, so the built token does
not equal the mirror rewrite of the reference, contradicting the claim. -/
theorem helm_mirror_rewrite_counterexample :
    ((NewHelm [WithRegistryMirror (some fun _ => "mirror.local/chart")]).InstallChartFromName
        "oci://original" "kc" "rel" "1.0").args[3]? = some "oci://original" ∧
    ReplaceRegistry (some fun _ => "mirror.local/chart") "oci://original" = "mirror.local/chart" ∧
    ("oci://original" : String) ≠ "mirror.local/chart" :=
  ⟨by decide, rfl, by decide⟩

/-- Claim C1, amended: Template, PullChart, ShowValues and SaveChart place the
mirror rewrite of the chart reference in the built argument list, while
InstallChartFromName, InstallChart and UpgradeChartWithValuesFile place the
original reference unchanged even when a mirror is configured; PushChart never
rewrites its destination; and the rewrite equals the mirror function applied to
the reference when a mirror is configured and the identity when none is. -/
theorem helm_mirror_rewrite_amended (h : Helm)
    (uri version nspace kv kc name chart reg folder vf : String)
    (skipCRDs : Bool) (values : List String) (opts : List HelmOpt) :
    (h.templateParams uri version nspace kv)[1]? = some (h.url uri) ∧
    (h.PullChart uri version).args[1]? = some (h.url uri) ∧
    (h.ShowValues uri version).args[2]? = some (h.url uri) ∧
    (h.SaveChart uri version folder).args[1]? = some (h.url uri) ∧
    (h.InstallChartFromName uri kc name version).args[3]? = some uri ∧
    (h.InstallChart chart uri version kc nspace vf skipCRDs values).args[3]? = some uri ∧
    ((h.UpgradeChartWithValuesFile chart uri version kc vf opts).2).args[2]? = some uri ∧
    (h.PushChart chart reg).args[1]? = some chart ∧
    (∀ m u, Helm.url { h with registryMirror := some m } u = m u) ∧
    (∀ u, Helm.url { h with registryMirror := none } u = u) := by
  refine ⟨?_, ?_, rfl, ?_, ?_, ?_, ?_, ?_, fun m u => rfl, fun u => rfl⟩
  · unfold Helm.templateParams
    rw [List.getElem?_append_left, getElem?_addInsecure]
    · rfl
    · simp
    · unfold Helm.addInsecureFlagIfProvided
      split <;> simp
  · rw [Helm.PullChart, getElem?_addInsecure] <;> simp
  · rw [Helm.SaveChart, getElem?_addInsecure] <;> simp
  · rw [Helm.InstallChartFromName, getElem?_addInsecure] <;> simp
  · simp only [Helm.InstallChart, Helm.addInsecureFlagIfProvided]
    split_ifs <;> simp
  · simp only [Helm.UpgradeChartWithValuesFile, Helm.addInsecureFlagIfProvided]
    split_ifs <;> simp
  · rw [Helm.PushChart, getElem?_addInsecure] <;> simp

/-- Claim C2, counterexample: on an instance constructed with the insecure
option, Template's built argument list ends with "-", not with the
skip-TLS-verification flag (the flag sits before the trailing "-f" "-"
pair), and ShowValues never includes the flag at all, contradicting the
claim that every built argument list ends with the flag. -/
theorem helm_insecure_flag_counterexample :
    (NewHelm [WithInsecure]).insecure = true ∧
    ((NewHelm [WithInsecure]).templateParams "oci://c" "1.0" "ns" "1.21").getLast? = some "-" ∧
    insecureSkipVerifyFlag ≠ "-" ∧
    insecureSkipVerifyFlag ∈ (NewHelm [WithInsecure]).templateParams "oci://c" "1.0" "ns" "1.21" ∧
    insecureSkipVerifyFlag ∉ ((NewHelm [WithInsecure]).ShowValues "oci://c" "1.0").args :=
  ⟨rfl, by decide, by decide, by decide, by decide⟩

/-- Claim C2, amended: when the insecure flag is set at invocation time,
PullChart, PushChart, SaveChart, InstallChartFromName, InstallChart,
InstallChartWithValuesFile, Delete and UpgradeChartWithValuesFile end their
argument list with the skip-TLS-verification flag; Template places the flag
before its trailing "-f" "-" pair; ShowValues and ListCharts never include
the flag; RegistryLogin appends "--insecure" instead.  When the insecure flag
is not set at invocation time, the skip-TLS-verification flag appears in no
built argument list (provided no caller-supplied token coincides with the
flag).  For UpgradeChartWithValuesFile, which applies its extra options to
the receiver first, the flag set "at invocation time" is the one of the
option-mutated instance, and the statement covers arbitrary extra options. -/
theorem helm_insecure_flag_amended :
    (∀ (h : Helm) (a b c d e f : String) (skipCRDs : Bool) (values : List String),
      h.insecure = true →
      (h.PullChart a b).args.getLast? = some insecureSkipVerifyFlag ∧
      (h.PushChart a b).args.getLast? = some insecureSkipVerifyFlag ∧
      (h.SaveChart a b c).args.getLast? = some insecureSkipVerifyFlag ∧
      (h.InstallChartFromName a b c d).args.getLast? = some insecureSkipVerifyFlag ∧
      (h.InstallChart a b c d e f skipCRDs values).args.getLast? = some insecureSkipVerifyFlag ∧
      (h.InstallChartWithValuesFile a b c d e).args.getLast? = some insecureSkipVerifyFlag ∧
      (h.DeleteCmd a b c).args.getLast? = some insecureSkipVerifyFlag ∧
      h.templateParams a b c d =
        ["template", h.url a, "--version", b, "--namespace", c, "--kube-version", d,
          insecureSkipVerifyFlag, "-f", "-"] ∧
      (h.ShowValues a b).args = ["show", "values", h.url a, "--version", b] ∧
      (h.ListChartsCmd a).args = ["list", "-q", "--kubeconfig", a] ∧
      (h.RegistryLogin a b c).args.getLast? = some "--insecure") ∧
    (∀ (h : Helm) (a b c d e : String) (opts : List HelmOpt),
      (applyOpts h opts).insecure = true →
      ((h.UpgradeChartWithValuesFile a b c d e opts).2).args.getLast? =
        some insecureSkipVerifyFlag) ∧
    (∀ (h : Helm) (a b c d e f : String) (skipCRDs : Bool) (values : List String),
      h.insecure = false →
      insecureSkipVerifyFlag ∉ values →
      insecureSkipVerifyFlag ≠ h.url a →
      insecureSkipVerifyFlag ≠ a → insecureSkipVerifyFlag ≠ b → insecureSkipVerifyFlag ≠ c →
      insecureSkipVerifyFlag ≠ d → insecureSkipVerifyFlag ≠ e → insecureSkipVerifyFlag ≠ f →
      insecureSkipVerifyFlag ∉ h.templateParams a b c d ∧
      insecureSkipVerifyFlag ∉ (h.PullChart a b).args ∧
      insecureSkipVerifyFlag ∉ (h.ShowValues a b).args ∧
      insecureSkipVerifyFlag ∉ (h.PushChart a b).args ∧
      insecureSkipVerifyFlag ∉ (h.RegistryLogin a b c).args ∧
      insecureSkipVerifyFlag ∉ (h.SaveChart a b c).args ∧
      insecureSkipVerifyFlag ∉ (h.InstallChartFromName a b c d).args ∧
      insecureSkipVerifyFlag ∉ (h.InstallChart a b c d e f skipCRDs values).args ∧
      insecureSkipVerifyFlag ∉ (h.InstallChartWithValuesFile a b c d e).args ∧
      insecureSkipVerifyFlag ∉ (h.DeleteCmd a b c).args ∧
      insecureSkipVerifyFlag ∉ (h.ListChartsCmd a).args) ∧
    (∀ (h : Helm) (a b c d e : String) (opts : List HelmOpt),
      (applyOpts h opts).insecure = false →
      insecureSkipVerifyFlag ≠ a → insecureSkipVerifyFlag ≠ b → insecureSkipVerifyFlag ≠ c →
      insecureSkipVerifyFlag ≠ d → insecureSkipVerifyFlag ≠ e →
      insecureSkipVerifyFlag ∉ ((h.UpgradeChartWithValuesFile a b c d e opts).2).args) := by
  refine ⟨?_, ?_, ?_, ?_⟩
  · intro h a b c d e f skipCRDs values hi
    refine ⟨?_, ?_, ?_, ?_, ?_, ?_, ?_, ?_, rfl, rfl, ?_⟩
    · simp only [Helm.PullChart]; exact getLast?_addInsecure h _ hi
    · simp only [Helm.PushChart]; exact getLast?_addInsecure h _ hi
    · simp only [Helm.SaveChart]; exact getLast?_addInsecure h _ hi
    · simp only [Helm.InstallChartFromName]; exact getLast?_addInsecure h _ hi
    · simp only [Helm.InstallChart]; exact getLast?_addInsecure h _ hi
    · simp only [Helm.InstallChartWithValuesFile]; exact getLast?_addInsecure h _ hi
    · simp only [Helm.DeleteCmd]; exact getLast?_addInsecure h _ hi
    · simp [Helm.templateParams, Helm.addInsecureFlagIfProvided, hi]
    · simp [Helm.RegistryLogin, hi, List.getLast?_concat]
  · intro h a b c d e opts hi
    simp only [Helm.UpgradeChartWithValuesFile]
    exact getLast?_addInsecure _ _ hi
  · intro h a b c d e f skipCRDs values hi hvals hu ha hb hc hd he hf
    have hset := not_mem_getHelmValueArgs insecureSkipVerifyFlag values hvals (by decide)
    refine ⟨?_, ?_, ?_, ?_, ?_, ?_, ?_, ?_, ?_, ?_, ?_⟩ <;>
      · simp only [Helm.templateParams, Helm.PullChart, Helm.ShowValues, Helm.PushChart,
          Helm.RegistryLogin, Helm.SaveChart, Helm.InstallChartFromName, Helm.InstallChart,
          Helm.InstallChartWithValuesFile, Helm.DeleteCmd, Helm.ListChartsCmd,
          Helm.addInsecureFlagIfProvided]
        first
        | (split_ifs <;> simp_all [insecureSkipVerifyFlag])
        | simp_all [insecureSkipVerifyFlag]
  · intro h a b c d e opts hi ha hb hc hd he
    simp only [Helm.UpgradeChartWithValuesFile, Helm.addInsecureFlagIfProvided]
    split_ifs <;> simp_all [insecureSkipVerifyFlag]

/-- Claim C2 amended, witness: on a concrete insecure instance PullChart ends
with the skip-TLS-verification flag; an UpgradeChartWithValuesFile call that
receives the WithInsecure option ends with the flag even on a default
instance; and on a default instance with no options the flag appears neither
in PullChart nor in UpgradeChartWithValuesFile argument lists. -/
theorem helm_insecure_flag_amended_witness :
    ((NewHelm [WithInsecure]).PullChart "oci://c" "1.0").args.getLast? =
      some insecureSkipVerifyFlag ∧
    (((NewHelm []).UpgradeChartWithValuesFile "r" "oci://c" "1.0" "kc" "vals"
        [WithInsecure]).2).args.getLast? = some insecureSkipVerifyFlag ∧
    insecureSkipVerifyFlag ∉ ((NewHelm []).PullChart "oci://c" "1.0").args ∧
    insecureSkipVerifyFlag ∉
      (((NewHelm []).UpgradeChartWithValuesFile "r" "oci://c" "1.0" "kc" "vals" []).2).args :=
  ⟨(helm_insecure_flag_amended.1 (NewHelm [WithInsecure]) "oci://c" "1.0" "x" "x" "x" "x"
      false [] rfl).1,
    helm_insecure_flag_amended.2.1 (NewHelm []) "r" "oci://c" "1.0" "kc" "vals"
      [WithInsecure] rfl,
    (helm_insecure_flag_amended.2.2.1 (NewHelm []) "oci://c" "1.0" "x" "x" "x" "x" false []
      rfl (by decide) (by decide) (by decide) (by decide) (by decide) (by decide) (by decide)
      (by decide)).2.1,
    helm_insecure_flag_amended.2.2.2 (NewHelm []) "r" "oci://c" "1.0" "kc" "vals" [] rfl
      (by decide) (by decide) (by decide) (by decide) (by decide)⟩

/-- Claim C3: a Helm instance constructed with zero options, installing
release "r" with chart reference "oci://x", version "1.0", namespace "ns",
empty kube-config and values-file paths, skip-CRDs false and no inline
overrides, builds exactly the claimed token sequence, with no insecure flag
appended. -/
theorem helm_installChart_concrete :
    ((NewHelm []).InstallChart "r" "oci://x" "1.0" "" "ns" "" false []).args =
      ["upgrade", "--install", "r", "oci://x", "--version", "1.0",
        "--create-namespace", "--namespace", "ns"] ∧
    insecureSkipVerifyFlag ∉
      ((NewHelm []).InstallChart "r" "oci://x" "1.0" "" "ns" "" false []).args :=
  ⟨by decide, by decide⟩

/-- Claim C4: when serialization of the values payload fails, Template
invokes no external command (the invocation trace is empty), produces no
manifest bytes, and returns the serialization error. -/
theorem helm_template_marshal_error (h : Helm) (uri version nspace kv e : String)
    (runner : Cmd → Except String String) :
    h.Template uri version nspace (.error e) kv runner =
      ([], .error ("failed marshalling values for helm template: " ++ e)) := rfl

/-- Claim C5: the argument list built by RegistryLogin does not depend on the
password (it equals the list built for any other password), the password is
delivered only as the standard-input payload, and whenever the password does
not coincide with another token of the invocation it is not a member of the
argument list. -/
theorem helm_registryLogin_password_safety (h : Helm) (reg u p : String) :
    (h.RegistryLogin reg u p).args = (h.RegistryLogin reg u "").args ∧
    (h.RegistryLogin reg u p).stdin = some p ∧
    (p ≠ "registry" → p ≠ "login" → p ≠ reg → p ≠ "--username" → p ≠ u →
      p ≠ "--password-stdin" → p ≠ "--insecure" → p ∉ (h.RegistryLogin reg u p).args) := by
  refine ⟨rfl, rfl, fun h1 h2 h3 h4 h5 h6 h7 => ?_⟩
  simp only [Helm.RegistryLogin]
  split_ifs <;> simp_all

/-- Claim C5, witness: a concrete login invocation carries the password on
standard input and not in the argument list. -/
theorem helm_registryLogin_password_safety_witness :
    ((NewHelm []).RegistryLogin "reg.example" "user" "hunter2").stdin = some "hunter2" ∧
    "hunter2" ∉ ((NewHelm []).RegistryLogin "reg.example" "user" "hunter2").args :=
  ⟨(helm_registryLogin_password_safety (NewHelm []) "reg.example" "user" "hunter2").2.1,
    (helm_registryLogin_password_safety (NewHelm []) "reg.example" "user" "hunter2").2.2
      (by decide) (by decide) (by decide) (by decide) (by decide) (by decide) (by decide)⟩

/-- Claim C6: ListCharts splits the external output on newline boundaries
dropping empty segments (on "a\nb\n\nc\n" it yields ["a", "b", "c"]), and
propagates an external failure with no list. -/
theorem helm_listCharts_split (h : Helm) (kc out e : String)
    (runner : Cmd → Except String String) :
    fieldsNewline "a\nb\n\nc\n" = ["a", "b", "c"] ∧
    (runner (h.ListChartsCmd kc) = .ok out →
      h.ListCharts kc runner = .ok (fieldsNewline out)) ∧
    (runner (h.ListChartsCmd kc) = .error e → h.ListCharts kc runner = .error e) := by
  refine ⟨by decide, fun hok => ?_, fun herr => ?_⟩
  · simp [Helm.ListCharts, hok]
  · simp [Helm.ListCharts, herr]

/-- Claim C6, witness: a concrete runner returning "a\nb\n\nc\n" yields the
chart list ["a", "b", "c"]. -/
theorem helm_listCharts_split_witness :
    (NewHelm []).ListCharts "kc" (fun _ => .ok "a\nb\n\nc\n") = .ok ["a", "b", "c"] := by
  have h := helm_listCharts_split (NewHelm []) "kc" "a\nb\n\nc\n" ""
    (fun _ => .ok "a\nb\n\nc\n")
  rw [h.2.1 rfl, h.1]

/-- Claim C7: when the external process fails during Delete with message M,
the returned error is the operation-identifying message followed by M; on
external success Delete returns no error. -/
theorem helm_delete_error_wrap (h : Helm) (kc name nspace M out : String)
    (runner : Cmd → Except String String) :
    (runner (h.DeleteCmd kc name nspace) = .error M →
      h.Delete kc name nspace runner = some ("deleting helm installation " ++ M)) ∧
    (runner (h.DeleteCmd kc name nspace) = .ok out →
      h.Delete kc name nspace runner = none) := by
  constructor
  · intro he; simp [Helm.Delete, he]
  · intro ho; simp [Helm.Delete, ho]

/-- Claim C7, witness: a concrete failing runner yields the wrapped error and
a concrete succeeding runner yields no error. -/
theorem helm_delete_error_wrap_witness :
    (NewHelm []).Delete "kc" "rel" "ns" (fun _ => .error "boom") =
      some ("deleting helm installation " ++ "boom") ∧
    (NewHelm []).Delete "kc" "rel" "ns" (fun _ => .ok "") = none :=
  ⟨(helm_delete_error_wrap (NewHelm []) "kc" "rel" "ns" "boom" ""
      (fun _ => .error "boom")).1 rfl,
    (helm_delete_error_wrap (NewHelm []) "kc" "rel" "ns" "boom" ""
      (fun _ => .ok "")).2 rfl⟩

/-- Claim C8: UpgradeChartWithValuesFile applies the extra options to the
receiver itself: the returned instance is the option-mutated one, the built
invocation takes its insecure flag and environment from the mutated instance
(passing the WithInsecure option makes this very call end with the
skip-TLS-verification flag), and the mutation persists for subsequent
operations on the returned instance. -/
theorem helm_upgradeChart_mutation (h : Helm) (chart uri version kc vf : String)
    (opts : List HelmOpt) :
    (h.UpgradeChartWithValuesFile chart uri version kc vf opts).1 = applyOpts h opts ∧
    (h.UpgradeChartWithValuesFile chart uri version kc vf opts).2.args =
      (applyOpts h opts).addInsecureFlagIfProvided
        ["upgrade", chart, uri, "--version", version, "--values", vf,
          "--kubeconfig", kc, "--wait"] ∧
    (h.UpgradeChartWithValuesFile chart uri version kc vf opts).2.env =
      (applyOpts h opts).env ∧
    ((h.UpgradeChartWithValuesFile chart uri version kc vf [WithInsecure]).1).insecure = true ∧
    (h.UpgradeChartWithValuesFile chart uri version kc vf [WithInsecure]).2.args.getLast? =
      some insecureSkipVerifyFlag ∧
    (((h.UpgradeChartWithValuesFile chart uri version kc vf [WithInsecure]).1).PullChart uri
        version).args.getLast? = some insecureSkipVerifyFlag := by
  refine ⟨rfl, rfl, rfl, rfl, ?_, ?_⟩
  · simp only [Helm.UpgradeChartWithValuesFile, applyOpts, List.foldl]
    exact getLast?_addInsecure _ _ rfl
  · simp only [Helm.UpgradeChartWithValuesFile, Helm.PullChart, applyOpts, List.foldl]
    exact getLast?_addInsecure _ _ rfl

/-- Claim C9: after any sequence of WithEnv merges, a key's value is that of
the last map to set it and otherwise the default mapping's value, so every
default key and every key of every applied map remains present (the mapping is
never cleared); and every operation passes the full instance mapping to the
external process. -/
theorem helm_env_merge (maps : List (String → Option String)) (k : String)
    (h' : Helm) (a b c d e f : String) (skipCRDs : Bool) (values : List String)
    (opts : List HelmOpt) (y : String) (runner : Cmd → Except String String) :
    ((applyOpts (NewHelm []) (maps.map WithEnv)).env k =
      match lastSetVal maps k with
      | some v => some v
      | none => defaultHelmEnv k) ∧
    ((defaultHelmEnv k).isSome →
      ((applyOpts (NewHelm []) (maps.map WithEnv)).env k).isSome) ∧
    (∀ m ∈ maps, (m k).isSome →
      ((applyOpts (NewHelm []) (maps.map WithEnv)).env k).isSome) ∧
    ((h'.PullChart a b).env = h'.env ∧
      (h'.ShowValues a b).env = h'.env ∧
      (h'.PushChart a b).env = h'.env ∧
      (h'.RegistryLogin a b c).env = h'.env ∧
      (h'.SaveChart a b c).env = h'.env ∧
      (h'.InstallChartFromName a b c d).env = h'.env ∧
      (h'.InstallChart a b c d e f skipCRDs values).env = h'.env ∧
      (h'.InstallChartWithValuesFile a b c d e).env = h'.env ∧
      (h'.DeleteCmd a b c).env = h'.env ∧
      (h'.ListChartsCmd a).env = h'.env ∧
      (h'.UpgradeChartWithValuesFile a b c d e opts).2.env =
        ((h'.UpgradeChartWithValuesFile a b c d e opts).1).env ∧
      ∀ cmd ∈ (h'.Template a b c (.ok y) d runner).1, cmd.env = h'.env) := by
  refine ⟨env_applyOpts_withEnv maps (NewHelm []) k, ?_, ?_,
    rfl, rfl, rfl, rfl, rfl, rfl, rfl, rfl, rfl, rfl, rfl, ?_⟩
  · intro hd
    rw [env_applyOpts_withEnv maps (NewHelm []) k]
    cases hl : lastSetVal maps k
    · exact hd
    · rfl
  · intro m hm hs
    rw [env_applyOpts_withEnv maps (NewHelm []) k]
    have := lastSetVal_isSome_of_mem maps k m hm hs
    cases hl : lastSetVal maps k
    · rw [hl] at this; cases this
    · rfl
  · intro cmd hcmd
    simp only [Helm.Template] at hcmd
    cases hrun : runner
        { args := h'.templateParams a b c d
          env := h'.env
          stdin := some y } <;>
      simp [hrun] at hcmd <;> subst hcmd <;> rfl

/-- Claim C9, witness: merging two concrete maps that both set key "A" leaves
the second value in place, and the default key survives the merges. -/
theorem helm_env_merge_witness :
    ((applyOpts (NewHelm []) ([envMapOne, envMapTwo].map WithEnv)).env "A" = some "2") ∧
    ((applyOpts (NewHelm [])
        ([envMapOne, envMapTwo].map WithEnv)).env "HELM_EXPERIMENTAL_OCI").isSome ∧
    ((applyOpts (NewHelm []) ([envMapOne, envMapTwo].map WithEnv)).env "A").isSome := by
  have h := helm_env_merge [envMapOne, envMapTwo] "A" (NewHelm []) "x" "x" "x" "x" "x" "x"
    false [] [] "y" (fun _ => .ok "")
  have h2 := helm_env_merge [envMapOne, envMapTwo] "HELM_EXPERIMENTAL_OCI" (NewHelm [])
    "x" "x" "x" "x" "x" "x" false [] [] "y" (fun _ => .ok "")
  refine ⟨?_, h2.2.1 (by decide), h.2.2.1 envMapTwo (by simp) (by decide)⟩
  rw [h.1]
  decide

/-- Claim C10: when the insecure flag is set, RegistryLogin appends
"--insecure" as the final argument, a token distinct from the
"--insecure-skip-tls-verify" flag used by the other operations; when the flag
is not set, the argument list is the fixed five-token list and contains
neither insecure-related token (provided no caller-supplied token coincides
with one). -/
theorem helm_registryLogin_insecure_token (h : Helm) (reg u p : String) :
    (h.insecure = true →
      (h.RegistryLogin reg u p).args =
        ["registry", "login", reg, "--username", u, "--password-stdin", "--insecure"] ∧
      (h.RegistryLogin reg u p).args.getLast? = some "--insecure" ∧
      ("--insecure" : String) ≠ insecureSkipVerifyFlag) ∧
    (h.insecure = false →
      (h.RegistryLogin reg u p).args =
        ["registry", "login", reg, "--username", u, "--password-stdin"] ∧
      (("--insecure" : String) ≠ reg → ("--insecure" : String) ≠ u →
        ("--insecure" : String) ∉ (h.RegistryLogin reg u p).args) ∧
      (insecureSkipVerifyFlag ≠ reg → insecureSkipVerifyFlag ≠ u →
        insecureSkipVerifyFlag ∉ (h.RegistryLogin reg u p).args)) := by
  constructor
  · intro hi
    refine ⟨?_, ?_, by decide⟩
    · simp [Helm.RegistryLogin, hi]
    · simp [Helm.RegistryLogin, hi, List.getLast?_concat]
  · intro hi
    refine ⟨?_, fun h1 h2 => ?_, fun h1 h2 => ?_⟩
    · simp [Helm.RegistryLogin, hi]
    · simp only [Helm.RegistryLogin, hi]
      simp_all
    · simp only [Helm.RegistryLogin, hi, insecureSkipVerifyFlag] at h1 h2 ⊢
      simp_all [insecureSkipVerifyFlag]

/-- Claim C10, witness: a concrete insecure instance ends its login argument
list with "--insecure"; a concrete default instance builds the five-token list
with no insecure-related token. -/
theorem helm_registryLogin_insecure_token_witness :
    ((NewHelm [WithInsecure]).RegistryLogin "reg.example" "user" "pw").args.getLast? =
      some "--insecure" ∧
    ("--insecure" : String) ∉ ((NewHelm []).RegistryLogin "reg.example" "user" "pw").args ∧
    insecureSkipVerifyFlag ∉ ((NewHelm []).RegistryLogin "reg.example" "user" "pw").args :=
  ⟨((helm_registryLogin_insecure_token (NewHelm [WithInsecure]) "reg.example" "user" "pw").1
      rfl).2.1,
    ((helm_registryLogin_insecure_token (NewHelm []) "reg.example" "user" "pw").2
      rfl).2.1 (by decide) (by decide),
    ((helm_registryLogin_insecure_token (NewHelm []) "reg.example" "user" "pw").2
      rfl).2.2 (by decide) (by decide)⟩


end HelmSpec
